import Mathlib

/-
Verification development for the fabric reachability-check subsystem
(scripts/inventory/reachability_checks/conn_check.py).

The Python source is shallowly embedded: strings are handled as `List Char`
with explicit models of the source language's `lstrip`, `strip`, `split`,
`lower`, and `replace` operations; the one regular expression used by the
parser is unfolded into an explicit deterministic matcher; the YAML document
tree is an explicit tagged value; network I/O (netmiko) is an oracle input
describing the outcome of each remote call.
-/

set_option maxHeartbeats 1000000

namespace ConnCheck

/- ---------------------------------------------------------------------
   Character / string primitives mirroring the source language's behavior
   --------------------------------------------------------------------- -/

/-- Whitespace characters recognized by the source language's
`strip`/`split` operations (ASCII subset). -/
def isPySpace (c : Char) : Bool :=
  c == ' ' || c == '\t' || c == '\n' || c == '\r' || c == '\x0b' || c == '\x0c'

/-- ASCII lower-casing of one character, as `str.lower` does on ASCII. -/
def charLower (c : Char) : Char :=
  if 'A' ≤ c ∧ c ≤ 'Z' then Char.ofNat (c.toNat + 32) else c

def lowerL (cs : List Char) : List Char := cs.map charLower

/-- `str.lower` on a whole string. -/
def pyLower (s : String) : String := String.mk (lowerL s.data)

/-- Word characters for the regex word-boundary `\b` (ASCII subset). -/
def isWordChar (c : Char) : Bool :=
  decide ('a' ≤ c ∧ c ≤ 'z') || decide ('A' ≤ c ∧ c ≤ 'Z') ||
  decide ('0' ≤ c ∧ c ≤ '9') || c == '_'

/-- `str.lstrip()`. -/
def lstripL (cs : List Char) : List Char := cs.dropWhile isPySpace

/-- `str.strip()`. -/
def pyStripL (cs : List Char) : List Char :=
  ((cs.dropWhile isPySpace).reverse.dropWhile isPySpace).reverse

/-- Accumulator loop for `str.split()` (split on whitespace runs,
no empty tokens). -/
def splitWsAux : List Char → List Char → List (List Char)
  | [], acc => if acc.isEmpty then [] else [acc.reverse]
  | c :: cs, acc =>
    if isPySpace c then
      if acc.isEmpty then splitWsAux cs [] else acc.reverse :: splitWsAux cs []
    else splitWsAux cs (c :: acc)

/-- `str.split()` with no argument. -/
def splitWsL (cs : List Char) : List (List Char) := splitWsAux cs []

/-- Accumulator loop for `str.split("\n")`. -/
def splitOnNlAux : List Char → List Char → List (List Char)
  | [], acc => [acc.reverse]
  | c :: cs, acc =>
    if c == '\n' then acc.reverse :: splitOnNlAux cs []
    else splitOnNlAux cs (c :: acc)

/-- `output.split("\n")`. -/
def splitOnNl (cs : List Char) : List (List Char) := splitOnNlAux cs []

/-- Tokenizer state for `re.split(r"\s\x7b2,\x7d", s)`: building a token,
having just seen a single whitespace character after a token (which belongs
to the token unless another whitespace character follows), or inside a
delimiter run. -/
inductive ColState where
  | tok (acc : List Char)
  | sp (acc : List Char) (spc : Char)
  | delim

/-- One-pass loop for `re.split(r"\s\x7b2,\x7d", s)`: a token is interrupted
only by a run of two or more whitespace characters; a single whitespace
character stays inside the token. -/
def splitColsAux : List Char → ColState → List (List Char)
  | [], .tok acc => [acc.reverse]
  | [], .sp acc spc => [(spc :: acc).reverse]
  | [], .delim => [[]]
  | c :: cs, .tok acc =>
    if isPySpace c then splitColsAux cs (.sp acc c)
    else splitColsAux cs (.tok (c :: acc))
  | c :: cs, .sp acc spc =>
    if isPySpace c then acc.reverse :: splitColsAux cs .delim
    else splitColsAux cs (.tok (c :: spc :: acc))
  | c :: cs, .delim =>
    if isPySpace c then splitColsAux cs .delim
    else splitColsAux cs (.tok [c])

/-- `re.split(r"\s\x7b2,\x7d", s)`: split on runs of two or more whitespace
characters (column-aligned output). -/
def splitColsL (cs : List Char) : List (List Char) := splitColsAux cs (.tok [])

/-- Fueled loop for `str.replace(pat, repl)` (replace every non-overlapping
occurrence, scanning left to right).  The fuel starts at the string length;
every step consumes at least one character, so the fuel never runs out on
the initial call.  An empty pattern takes the second branch and leaves the
string unchanged; the source only ever calls this with a non-empty pattern. -/
def replaceFuel (pat repl : List Char) : Nat → List Char → List Char
  | 0, cs => cs
  | _ + 1, [] => []
  | fuel + 1, c :: cs =>
    if !pat.isEmpty && pat.isPrefixOf (c :: cs) then
      repl ++ replaceFuel pat repl fuel (List.drop pat.length (c :: cs))
    else
      c :: replaceFuel pat repl fuel cs

/-- `s.replace(pat, repl)`. -/
def pyReplace (s pat repl : String) : String :=
  String.mk (replaceFuel pat.data repl.data s.data.length s.data)

/- ---------------------------------------------------------------------
   StatusOutputParser: parse_interface_status_output
   --------------------------------------------------------------------- -/

/-- Split a leading run of decimal digits off a character list. -/
def takeDigits : List Char → (List Char × List Char)
  | [] => ([], [])
  | c :: cs =>
    if c.isDigit then
      let (d, r) := takeDigits cs
      (c :: d, r)
    else ([], c :: cs)

/-- Word boundary `\b` immediately after a word character: holds at end of
input or before a non-word character. -/
def boundaryAfter : List Char → Bool
  | [] => true
  | c :: _ => !isWordChar c

/-- Deterministic unfolding of the first regex alternative
`Eth\d+(?:/\d+)\x7b1,2\x7d` (case-insensitive) followed by `\b`, anchored at
the start of the list.  Backtracking from two slash-groups to one is possible
only when the boundary after the second group fails, in which case the
character after the first group is `/`, so the one-group boundary always
holds there. -/
def matchEth (cs : List Char) : Option (List Char) :=
  match cs with
  | c1 :: c2 :: c3 :: rest =>
    if charLower c1 == 'e' && charLower c2 == 't' && charLower c3 == 'h' then
      let (d1, r1) := takeDigits rest
      if d1.isEmpty then none
      else
        match r1 with
        | '/' :: r2 =>
          let (d2, r3) := takeDigits r2
          if d2.isEmpty then none
          else
            match r3 with
            | '/' :: r4 =>
              let (d3, r5) := takeDigits r4
              if !d3.isEmpty && boundaryAfter r5 then
                some (c1 :: c2 :: c3 :: (d1 ++ '/' :: d2 ++ '/' :: d3))
              else
                some (c1 :: c2 :: c3 :: (d1 ++ '/' :: d2))
            | _ =>
              if boundaryAfter r3 then some (c1 :: c2 :: c3 :: (d1 ++ '/' :: d2))
              else none
        | _ => none
    else none
  | _ => none

/-- Deterministic unfolding of the second regex alternative `mgmt\d+`
(case-insensitive) followed by `\b`, anchored at the start of the list. -/
def matchMgmt (cs : List Char) : Option (List Char) :=
  match cs with
  | c1 :: c2 :: c3 :: c4 :: rest =>
    if charLower c1 == 'm' && charLower c2 == 'g' && charLower c3 == 'm' &&
       charLower c4 == 't' then
      let (d, r) := takeDigits rest
      if !d.isEmpty && boundaryAfter r then some (c1 :: c2 :: c3 :: c4 :: d)
      else none
    else none
  | _ => none

/-- `re.match(r"^(Eth\d+(?:/\d+)\x7b1,2\x7d|mgmt\d+)\b", s, re.IGNORECASE)`:
the matched group, keeping the original character case. -/
def matchIfaceToken (cs : List Char) : Option (List Char) :=
  match matchEth cs with
  | some m => some m
  | none => matchMgmt cs

/-- The status keyword set used by the token scan. -/
def statusKeywords : List String :=
  ["connected", "notconnect", "not", "disabled", "err-disabled", "suspended"]

/-- Token scan: for each token after the first, `tt = t.strip().lower()`;
the first `tt` in the keyword set wins, with `not` normalized to
`notconnect`. -/
def scanTokens : List (List Char) → Option String
  | [] => none
  | t :: ts =>
    let tt := String.mk (lowerL (pyStripL t))
    if statusKeywords.contains tt then
      some (if tt == "not" then "notconnect" else tt)
    else scanTokens ts

/-- Does word-boundary-delimited pattern recognition hold at the head of
`cs`?  `ok` checks the pattern itself plus the boundary after it; the
boundary before the match position is threaded as `prev`. -/
def searchPat (ok : List Char → Bool) (prev : Option Char) : List Char → Bool
  | [] => (match prev with | none => true | some p => !isWordChar p) && ok []
  | c :: rest =>
    ((match prev with | none => true | some p => !isWordChar p) && ok (c :: rest)) ||
    searchPat ok (some c) rest

/-- Pattern head check: literal word `w` followed by a word boundary. -/
def wordHere (w : List Char) (cs : List Char) : Bool :=
  w.isPrefixOf cs && boundaryAfter (cs.drop w.length)

/-- Pattern head check for `err-?disabled\b`. -/
def errDisabledHere (cs : List Char) : Bool :=
  wordHere "err-disabled".data cs || wordHere "errdisabled".data cs

/-- Pattern head check for `not\s*connect\b|notconnect\b`; the second
alternative is the zero-whitespace case of the first, but both are kept to
mirror the source pattern. -/
def notConnectHere (cs : List Char) : Bool :=
  ("not".data.isPrefixOf cs &&
    wordHere "connect".data ((cs.drop 3).dropWhile isPySpace)) ||
  wordHere "notconnect".data cs

/-- Fallback strategy: full-line keyword search over the lower-cased line,
in the source's priority order. -/
def keywordSearchStatus (s : List Char) : Option String :=
  let lower := lowerL s
  if searchPat errDisabledHere none lower then some "err-disabled"
  else if searchPat (wordHere "disabled".data) none lower then some "disabled"
  else if searchPat notConnectHere none lower then some "notconnect"
  else if searchPat (wordHere "suspended".data) none lower then some "suspended"
  else if searchPat (wordHere "connected".data) none lower then some "connected"
  else none

/-- Last-resort strategy: third column when splitting on runs of two or
more spaces, else third whitespace-delimited token, stripped and
lower-cased. -/
def columnStatus (s : List Char) : Option String :=
  match splitColsL s with
  | _ :: _ :: p :: _ => some (String.mk (lowerL (pyStripL p)))
  | _ =>
    match splitWsL s with
    | _ :: _ :: t :: _ => some (String.mk (lowerL (pyStripL t)))
    | _ => none

/-- Per-line status resolution, mirroring the source statement order:
token scan first (`status` stays `"unknown"` when the loop never breaks),
then the keyword search, then the column fallback. -/
def lineStatusL (s : List Char) : String :=
  let status :=
    match scanTokens ((splitWsL s).drop 1) with
    | some v => v
    | none => "unknown"
  if status = "unknown" then
    match keywordSearchStatus s with
    | some v => v
    | none =>
      match columnStatus s with
      | some v => v
      | none => "unknown"
  else status

/-- Process one raw line: strip leading whitespace, require an interface
token at the start, and resolve the status. -/
def parseLineL (line : List Char) : Option (String × String) :=
  let s := lstripL line
  match matchIfaceToken s with
  | some key => some (String.mk key, lineStatusL s)
  | none => none

/-- Insertion-order-preserving update of the status dictionary:
`interface_status[interface] = status`. -/
def updateAssoc (m : List (String × String)) (k v : String) :
    List (String × String) :=
  if m.any (fun p => p.1 == k) then
    m.map (fun p => if p.1 == k then (k, v) else p)
  else m ++ [(k, v)]

/-- Dictionary lookup `m.get(k)` returning an option. -/
def lookupAssoc (m : List (String × String)) (k : String) : Option String :=
  match m.find? (fun p => p.1 == k) with
  | some p => some p.2
  | none => none

/-- parse_interface_status_output: split the raw CLI text into lines and
record interface → status for every line that starts with an interface
token. -/
def parse_interface_status_output (output : String) : List (String × String) :=
  (splitOnNl output.data).foldl
    (fun m lcs =>
      match parseLineL lcs with
      | some (k, v) => updateAssoc m k v
      | none => m)
    []

/- ---------------------------------------------------------------------
   ConfigTreeScanner: parsed YAML documents and extract_devices_from_yaml
   --------------------------------------------------------------------- -/

mutual

/-- A parsed structured document: null, boolean, integer, string, sequence
or mapping (mapping pairs kept in document order, as the source language's
dictionaries preserve insertion order). -/
inductive YValue where
  | null : YValue
  | boolv : Bool → YValue
  | numv : Int → YValue
  | strv : String → YValue
  | seq : YList → YValue
  | map : YMap → YValue

inductive YList where
  | nil : YList
  | cons : YValue → YList → YList

inductive YMap where
  | mnil : YMap
  | mcons : String → YValue → YMap → YMap

end

/-- Single-quoted rendering of a string scalar, as the source language's
`repr` produces for strings without special characters (escaping is not
modelled). -/
def pyQuote (s : String) : String :=
  String.mk [Char.ofNat 39] ++ s ++ String.mk [Char.ofNat 39]

mutual

/-- Rendering of a value as the source language's `repr`. -/
def pyReprV : YValue → String
  | .null => "None"
  | .boolv true => "True"
  | .boolv false => "False"
  | .numv n => toString n
  | .strv s => pyQuote s
  | .seq xs => "[" ++ pyReprL xs ++ "]"
  | .map ps => "\x7b" ++ pyReprM ps ++ "\x7d"

def pyReprL : YList → String
  | .nil => ""
  | .cons x .nil => pyReprV x
  | .cons x rest => pyReprV x ++ ", " ++ pyReprL rest

def pyReprM : YMap → String
  | .mnil => ""
  | .mcons k v .mnil => pyQuote k ++ ": " ++ pyReprV v
  | .mcons k v rest => pyQuote k ++ ": " ++ pyReprV v ++ ", " ++ pyReprM rest

end

/-- Rendering of a value as the source language's `str` (used by the
f-string that builds the dedup key). -/
def pyStr : YValue → String
  | .strv s => s
  | v => pyReprV v

/-- Key test for the address field: `key.lower() == "ip address" or
key.lower() == "ip_address"`. -/
def isIpKey (k : String) : Bool :=
  pyLower k == "ip address" || pyLower k == "ip_address"

/-- Key test for the name field: `key.lower() == "hostname"`. -/
def isHostKey (k : String) : Bool := pyLower k == "hostname"

/-- The mutable `device_info` fields written by the recursive search. -/
structure DeviceInfoState where
  ip : Option YValue
  hostname : Option YValue

mutual

/-- find_device_info: recursive search of the parsed document.  A matching
key assigns its value (overwriting any earlier assignment); a non-matching
key recurses into its value when that value is a mapping or a sequence. -/
def find_device_info : YValue → DeviceInfoState → DeviceInfoState
  | .map ps, st => findInfoMap ps st
  | .seq xs, st => findInfoSeq xs st
  | _, st => st

def findInfoMap : YMap → DeviceInfoState → DeviceInfoState
  | .mnil, st => st
  | .mcons k v rest, st =>
    -- The source guards this recursive call with an isinstance check for
    -- mappings and sequences; the search leaves the state unchanged on
    -- every other value, so the guarded call equals the unguarded one.
    let st' :=
      if isIpKey k then { st with ip := some v }
      else if isHostKey k then { st with hostname := some v }
      else find_device_info v st
    findInfoMap rest st'

def findInfoSeq : YList → DeviceInfoState → DeviceInfoState
  | .nil, st => st
  | .cons x xs, st => findInfoSeq xs (find_device_info x st)

end

/-- One file of the configuration tree, as the directory walk sees it:
its path components relative to the root, its extension, and its parsed
content (`none` when reading or parsing raises, which the source logs and
skips). -/
structure FSFile where
  relParts : List String
  suffix : String
  doc : Option YValue

/-- A discovered device descriptor (the `device_info` dictionary once both
identity fields are present). -/
structure DeviceInfo where
  file : String
  filepath : String
  ip : YValue
  hostname : YValue

def fileName (f : FSFile) : String := f.relParts.getLastD ""

def filePath (f : FSFile) : String := String.intercalate "/" f.relParts

/-- Membership in the `seen_devices` set. -/
def keyMem (k : String) : List String → Bool
  | [] => false
  | x :: xs => if x == k then true else keyMem k xs

/-- The body of the walk once the identity search has run: append the
descriptor when both fields were found and its key is new, update the
`seen_devices` set accordingly. -/
def foundDevice (f : FSFile) (st : DeviceInfoState) (seen : List String)
    (devs : List DeviceInfo) : List String × List DeviceInfo :=
  match st with
  | ⟨some ipv, some hostv⟩ =>
    let key := pyStr hostv ++ "_" ++ pyStr ipv
    if keyMem key seen then (seen, devs)
    else (key :: seen, devs ++ [⟨fileName f, filePath f, ipv, hostv⟩])
  | ⟨_, _⟩ => (seen, devs)

/-- The body of the walk once the file has been read: a read or parse
failure is logged and skipped, a parsed document is searched. -/
def processDoc (f : FSFile) :
    Option YValue → List String → List DeviceInfo →
      List String × List DeviceInfo
  | none, seen, devs => (seen, devs)
  | some data, seen, devs =>
    foundDevice f (find_device_info data ⟨none, none⟩) seen devs

/-- Processing of a single file by the walk: skip wrong suffixes and files
directly under the root, otherwise read and search. -/
def processFile (f : FSFile) (seen : List String) (devs : List DeviceInfo) :
    List String × List DeviceInfo :=
  if pyLower f.suffix == ".yaml" || pyLower f.suffix == ".yml" then
    if f.relParts.length < 2 then (seen, devs)
    else processDoc f f.doc seen devs
  else (seen, devs)

/-- The walk of extract_devices_from_yaml over the discovered files, with
the `seen_devices` set and the accumulated `device_list`. -/
def extractLoop : List FSFile → List String → List DeviceInfo → List DeviceInfo
  | [], _, devs => devs
  | f :: rest, seen, devs =>
    extractLoop rest (processFile f seen devs).1 (processFile f seen devs).2

/-- extract_devices_from_yaml: walk every file under the root and collect
deduplicated device descriptors. -/
def extract_devices_from_yaml (files : List FSFile) : List DeviceInfo :=
  extractLoop files [] []

/- ---------------------------------------------------------------------
   ReconciliationEngine and check_device_interface_connectivity
   --------------------------------------------------------------------- -/

/-- One interface lacking a Policy key, as produced by
get_interfaces_without_policy: name, description, and the normalized
Enable Interface flag. -/
structure IfaceEntry where
  name : String
  description : String
  enable : Bool

/-- One entry of `results["interface_results"]`. -/
structure InterfaceCheckResult where
  name : String
  description : String
  status : String
  expected_enable : Bool
  matches_config : Bool

/-- The match rule of the source (its two-clause disjunction kept as
written): actual must be connected exactly when the flag expects enabled. -/
def matchesConfig (status : String) (expected_enable : Bool) : Bool :=
  let actual_is_connected := status == "connected"
  (actual_is_connected && expected_enable) ||
    (!actual_is_connected && !expected_enable)

/-- Reconcile one policy-less interface against the parsed status map:
translate the declared name, look it up (defaulting to the `not found`
sentinel), and apply the match rule. -/
def checkOneInterface (m : List (String × String)) (e : IfaceEntry) :
    InterfaceCheckResult :=
  let eth_name := pyReplace e.name "Ethernet" "Eth"
  let status := (lookupAssoc m eth_name).getD "not found"
  let expected_enable := e.enable
  { name := e.name
    description := e.description
    status := status
    expected_enable := expected_enable
    matches_config := matchesConfig status expected_enable }

/-- The loop over interfaces without policy. -/
def runInterfaceChecks (m : List (String × String)) (ifaces : List IfaceEntry) :
    List InterfaceCheckResult :=
  ifaces.map (checkOneInterface m)

/-- The exceptions the source distinguishes around the remote session. -/
inductive NetmikoExc where
  | timeout
  | authFail
  | other (msg : String)

/-- The error message each handler records. -/
def excMessage : NetmikoExc → String
  | .timeout => "Connection Timeout"
  | .authFail => "Authentication Failed"
  | .other m => "Error: " ++ m

/-- Oracle describing what each remote call would do for one device:
whether ConnectHandler raises, what send_command returns or raises, and
whether disconnect raises.  Later fields are consulted only when execution
reaches the corresponding call. -/
structure SessionBehavior where
  connect : Option NetmikoExc
  exec : Except NetmikoExc String
  disconnect : Option NetmikoExc

/-- The per-device result record. -/
structure DeviceCheckResult where
  connected : Bool
  hostname : YValue
  interface_results : List InterfaceCheckResult
  error_message : String

/-- check_device_interface_connectivity: connect, mark connected, run the
status command and the reconciliation loop when there are policy-less
interfaces, disconnect; every raised exception is caught and recorded as
`error_message`.  `connected` is set to true immediately after a successful
connect, before the command runs. -/
def check_device_interface_connectivity (hasFilepath : Bool)
    (ifaces : List IfaceEntry) (hostname : Option YValue)
    (sb : SessionBehavior) : DeviceCheckResult :=
  let hn := hostname.getD (.strv "Unknown")
  match sb.connect with
  | some e =>
    { connected := false, hostname := hn, interface_results := []
      error_message := excMessage e }
  | none =>
    if hasFilepath && !ifaces.isEmpty then
      match sb.exec with
      | .error e =>
        { connected := true, hostname := hn, interface_results := []
          error_message := excMessage e }
      | .ok output =>
        let irs := runInterfaceChecks (parse_interface_status_output output) ifaces
        match sb.disconnect with
        | some e =>
          { connected := true, hostname := hn, interface_results := irs
            error_message := excMessage e }
        | none =>
          { connected := true, hostname := hn, interface_results := irs
            error_message := "" }
    else
      match sb.disconnect with
      | some e =>
        { connected := true, hostname := hn, interface_results := []
          error_message := excMessage e }
      | none =>
        { connected := true, hostname := hn, interface_results := []
          error_message := "" }

/- ---------------------------------------------------------------------
   Orchestrator: check
   --------------------------------------------------------------------- -/

/-- One step of the fabric-wide flag update in the device loop: a
connection failure clears the flag; a connected device clears it for every
interface result that does not match. -/
def devStep (flag : Bool) (r : DeviceCheckResult) : Bool :=
  if r.connected then
    r.interface_results.foldl (fun a ir => if ir.matches_config then a else false) flag
  else false

/-- One device's run inside check: the device dictionaries produced by the
scan always carry a filepath, the policy-less interfaces come from reading
that file (modelled as the `ifacesOf` oracle), and the session behaviour
comes from the network (the `sessionOf` oracle). -/
def runDevice (ifacesOf : DeviceInfo → List IfaceEntry)
    (sessionOf : DeviceInfo → SessionBehavior) (d : DeviceInfo) :
    DeviceCheckResult :=
  check_device_interface_connectivity true (ifacesOf d) (some d.hostname)
    (sessionOf d)

/-- check: extract the device list, fail the run when it is empty, and
otherwise fold the per-device results into the fabric-wide flag, which
starts true. -/
def check (files : List FSFile)
    (ifacesOf : DeviceInfo → List IfaceEntry)
    (sessionOf : DeviceInfo → SessionBehavior) : Bool :=
  let device_list := extract_devices_from_yaml files
  if device_list.isEmpty then false
  else device_list.foldl (fun flag d => devStep flag (runDevice ifacesOf sessionOf d)) true

/- ---------------------------------------------------------------------
   Derived notions used by the statements below
   --------------------------------------------------------------------- -/

/-- The canonical status vocabulary named by the data model. -/
def statusVocab : List String :=
  ["connected", "notconnect", "disabled", "err-disabled", "suspended"]

/-- A device's contribution to the fabric-wide verdict: reachable and every
interface result matching. -/
def devOk (r : DeviceCheckResult) : Bool :=
  r.connected && r.interface_results.all (fun ir => ir.matches_config)

/-- Eligibility of a file for device discovery: structured-data suffix and
depth at least two relative to the root. -/
def eligibleFile (f : FSFile) : Bool :=
  (pyLower f.suffix == ".yaml" || pyLower f.suffix == ".yml") &&
    decide (2 ≤ f.relParts.length)

/-- The descriptor a searched document yields when both identity fields
were found. -/
def descFound (f : FSFile) : DeviceInfoState → Option DeviceInfo
  | ⟨some ipv, some hostv⟩ => some ⟨fileName f, filePath f, ipv, hostv⟩
  | ⟨_, _⟩ => none

/-- The descriptor a read file yields. -/
def descDoc (f : FSFile) : Option YValue → Option DeviceInfo
  | none => none
  | some data => descFound f (find_device_info data ⟨none, none⟩)

/-- The descriptor one file would contribute before deduplication, following
the per-file branch structure of the walk. -/
def fileDescriptor (f : FSFile) : Option DeviceInfo :=
  if pyLower f.suffix == ".yaml" || pyLower f.suffix == ".yml" then
    if f.relParts.length < 2 then none
    else descDoc f f.doc
  else none

/-- Identity key of a descriptor, as the f-string builds it. -/
def devKey (d : DeviceInfo) : String := pyStr d.hostname ++ "_" ++ pyStr d.ip

/-- Modelled from the spec (§3 identity key, §4.1 dedup contract): keep the
first descriptor for each identity key, drop later duplicates unmerged. -/
def dedupKeepFirst : List DeviceInfo → List String → List DeviceInfo
  | [], _ => []
  | d :: ds, seen =>
    if keyMem (devKey d) seen then dedupKeepFirst ds seen
    else d :: dedupKeepFirst ds (devKey d :: seen)

/-- One assignment performed by the identity-field search, in traversal
order. -/
inductive InfoEvent where
  | setIp (v : YValue)
  | setHost (v : YValue)

/-- Replay one assignment onto the search state. -/
def applyEvent (st : DeviceInfoState) : InfoEvent → DeviceInfoState
  | .setIp v => { st with ip := some v }
  | .setHost v => { st with hostname := some v }

mutual

/-- The assignments the identity-field search performs on a value, in the
order it performs them. -/
def infoEventsV : YValue → List InfoEvent
  | .map ps => infoEventsM ps
  | .seq xs => infoEventsL xs
  | _ => []

def infoEventsM : YMap → List InfoEvent
  | .mnil => []
  | .mcons k v rest =>
    (if isIpKey k then [InfoEvent.setIp v]
     else if isHostKey k then [InfoEvent.setHost v]
     else infoEventsV v) ++ infoEventsM rest

def infoEventsL : YList → List InfoEvent
  | .nil => []
  | .cons x xs => infoEventsV x ++ infoEventsL xs

end

/-- The address values assigned, in traversal order. -/
def ipVals (evs : List InfoEvent) : List YValue :=
  evs.filterMap fun e => match e with | .setIp v => some v | _ => none

/-- The hostname values assigned, in traversal order. -/
def hostVals (evs : List InfoEvent) : List YValue :=
  evs.filterMap fun e => match e with | .setHost v => some v | _ => none

/-- The value left in a field after a sequence of assignments: the last
assignment when there is one, the previous content otherwise. -/
def lastAssigned (l : List YValue) (dflt : Option YValue) : Option YValue :=
  match l.getLast? with
  | some x => some x
  | none => dflt

/-- A document whose traversal meets a hostname key twice, in two nested
mappings. -/
def twoHostDoc : YValue :=
  .map (.mcons "a" (.map (.mcons "hostname" (.strv "A") .mnil))
    (.mcons "b" (.map (.mcons "Hostname" (.strv "B") .mnil)) .mnil))

/-- A well-formed device file used to instantiate run-level statements. -/
def wFile : FSFile :=
  ⟨["leaf", "sw1.yaml"], ".yaml",
    some (.map (.mcons "ip address" (.strv "10.0.0.1")
      (.mcons "hostname" (.strv "sw1") .mnil)))⟩

/-- A session on which the command raises a generic exception after a
successful connect. -/
def execFailSession : SessionBehavior := ⟨none, .error (.other "boom"), none⟩

/-- A session whose connect raises a timeout. -/
def timeoutSession : SessionBehavior := ⟨some .timeout, .ok "", none⟩

/-- A session that succeeds with empty command output. -/
def okSession : SessionBehavior := ⟨none, .ok "", none⟩

/-- A single policy-less interface entry, expected enabled. -/
def ethEntry : IfaceEntry := ⟨"Ethernet1/1", "", true⟩

/- ---------------------------------------------------------------------
   Helper lemmas
   --------------------------------------------------------------------- -/

theorem keyMem_cons (k x : String) (xs : List String) :
    keyMem k (x :: xs) = ((x == k) || keyMem k xs) := by
  by_cases h : x = k
  · simp [keyMem, h]
  · simp [keyMem, h]

theorem keyMem_iff (k : String) (l : List String) : keyMem k l = true ↔ k ∈ l := by
  induction l with
  | nil => simp [keyMem]
  | cons x xs ih =>
    rw [keyMem_cons]
    simp [ih, Bool.or_eq_true, beq_iff_eq, eq_comm (a := x)]

theorem foldl_iface_flag (l : List InterfaceCheckResult) (flag : Bool) :
    l.foldl (fun a ir => ir.matches_config && a) flag =
      (flag && l.all (fun ir => ir.matches_config)) := by
  induction l generalizing flag with
  | nil => simp
  | cons x xs ih =>
    rw [List.foldl_cons, ih, List.all_cons]
    cases x.matches_config <;> cases flag <;> simp

theorem devStep_eq_and (flag : Bool) (r : DeviceCheckResult) :
    devStep flag r = (flag && devOk r) := by
  unfold devStep devOk
  cases h : r.connected
  · simp [h]
  · simp [h, foldl_iface_flag]

theorem foldl_devStep_all {α : Type} (f : α → DeviceCheckResult) (l : List α)
    (flag : Bool) :
    l.foldl (fun fl d => devStep fl (f d)) flag = (flag && l.all (fun d => devOk (f d))) := by
  induction l generalizing flag with
  | nil => simp
  | cons x xs ih =>
    rw [List.foldl_cons, List.all_cons, devStep_eq_and, ih, Bool.and_assoc]

theorem check_eq_all (files : List FSFile)
    (ifacesOf : DeviceInfo → List IfaceEntry)
    (sessionOf : DeviceInfo → SessionBehavior)
    (h : extract_devices_from_yaml files ≠ []) :
    check files ifacesOf sessionOf =
      (extract_devices_from_yaml files).all
        (fun d => devOk (runDevice ifacesOf sessionOf d)) := by
  have hne : (extract_devices_from_yaml files).isEmpty = false := by
    cases hE : extract_devices_from_yaml files with
    | nil => exact absurd hE h
    | cons a l => rfl
  simp only [check, hne, Bool.false_eq_true, if_false]
  rw [foldl_devStep_all, Bool.true_and]

theorem all_and_split {α : Type} (l : List α) (p q : α → Bool) :
    l.all (fun x => p x && q x) = (l.all p && l.all q) := by
  induction l with
  | nil => simp
  | cons x xs ih =>
    simp only [List.all_cons, ih]
    cases p x <;> cases q x <;> cases xs.all p <;> cases xs.all q <;> rfl

/- ---------------------------------------------------------------------
   C2: the reconciliation law
   --------------------------------------------------------------------- -/

/-- C2: for every status map and policy-less interface entry, the computed
matches flag equals ((status == "connected") == expectedEnabled); every
status other than "connected" (including "unknown" and "not found") counts
as not connected. -/
theorem reconciliation_law (m : List (String × String)) (e : IfaceEntry) :
    (checkOneInterface m e).matches_config =
      (((checkOneInterface m e).status == "connected") == e.enable) := by
  simp only [checkOneInterface, matchesConfig]
  cases h : ((lookupAssoc m (pyReplace e.name "Ethernet" "Eth")).getD "not found") == "connected" <;>
    cases e.enable <;> simp [h]

/- ---------------------------------------------------------------------
   C10: an empty device list fails the run
   --------------------------------------------------------------------- -/

/-- C10: when discovery yields no devices, check returns false, although the
conjunction over the empty device list is vacuously true. -/
theorem empty_discovery_fails (files : List FSFile)
    (ifacesOf : DeviceInfo → List IfaceEntry)
    (sessionOf : DeviceInfo → SessionBehavior)
    (h : extract_devices_from_yaml files = []) :
    check files ifacesOf sessionOf = false ∧
      (extract_devices_from_yaml files).all
        (fun d => devOk (runDevice ifacesOf sessionOf d)) = true := by
  constructor
  · unfold check
    rw [h]
    rfl
  · rw [h]
    rfl

theorem empty_discovery_fails_witness :
    check [] (fun _ => []) (fun _ => okSession) = false ∧
      (extract_devices_from_yaml []).all
        (fun d => devOk (runDevice (fun _ => []) (fun _ => okSession) d)) = true :=
  empty_discovery_fails [] (fun _ => []) (fun _ => okSession) rfl

/- ---------------------------------------------------------------------
   C1: the fabric-wide verdict as a conjunction
   --------------------------------------------------------------------- -/

/-- C1 (amended): for every run that discovers at least one device, the
fabric-wide verdict equals the conjunction of every device's connected flag
with every interface result's matches flag across all devices. -/
theorem fabric_verdict_is_conjunction (files : List FSFile)
    (ifacesOf : DeviceInfo → List IfaceEntry)
    (sessionOf : DeviceInfo → SessionBehavior)
    (h : extract_devices_from_yaml files ≠ []) :
    check files ifacesOf sessionOf =
      ((extract_devices_from_yaml files).all
          (fun d => (runDevice ifacesOf sessionOf d).connected) &&
        (extract_devices_from_yaml files).all
          (fun d => (runDevice ifacesOf sessionOf d).interface_results.all
            (fun ir => ir.matches_config))) := by
  rw [check_eq_all files ifacesOf sessionOf h]
  rw [← all_and_split]
  rfl

theorem fabric_verdict_is_conjunction_witness :
    extract_devices_from_yaml [wFile] ≠ [] ∧
      check [wFile] (fun _ => []) (fun _ => okSession) =
        ((extract_devices_from_yaml [wFile]).all
            (fun d => (runDevice (fun _ => []) (fun _ => okSession) d).connected) &&
          (extract_devices_from_yaml [wFile]).all
            (fun d => (runDevice (fun _ => []) (fun _ => okSession) d).interface_results.all
              (fun ir => ir.matches_config))) :=
  ⟨fun h => List.noConfusion h,
    fabric_verdict_is_conjunction [wFile] (fun _ => []) (fun _ => okSession)
      (fun h => List.noConfusion h)⟩

/-- C1 (counterexample to the unrestricted claim): on a run that discovers
no devices, check returns false while the conjunction over the empty set of
devices and interfaces is vacuously true. -/
theorem fabric_verdict_empty_run_cex :
    check [] (fun _ => []) (fun _ => okSession) = false ∧
      ((extract_devices_from_yaml []).all
          (fun d => (runDevice (fun _ => []) (fun _ => okSession) d).connected) &&
        (extract_devices_from_yaml []).all
          (fun d => (runDevice (fun _ => []) (fun _ => okSession) d).interface_results.all
            (fun ir => ir.matches_config))) = true :=
  ⟨rfl, rfl⟩

/- ---------------------------------------------------------------------
   C9: name translation and the "not found" sentinel
   --------------------------------------------------------------------- -/

/-- C9: a policy-less entry's declared name is translated by rewriting the
full word "Ethernet" to "Eth" before the StatusMap lookup (so "Ethernet1/1"
resolves to "Eth1/1"), and when the translated name is absent the recorded
status is the sentinel "not found", which matches exactly when
expectedEnabled is false. -/
theorem name_translation_and_not_found (m : List (String × String))
    (e : IfaceEntry)
    (h : lookupAssoc m (pyReplace e.name "Ethernet" "Eth") = none) :
    (checkOneInterface m e).status = "not found" ∧
      (checkOneInterface m e).matches_config = !e.enable ∧
      pyReplace "Ethernet1/1" "Ethernet" "Eth" = "Eth1/1" ∧
      "not found" ≠ "unknown" := by
  obtain ⟨nm, ds, en⟩ := e
  refine ⟨?_, ?_, rfl, by decide⟩
  · simp [checkOneInterface, h]
  · cases en <;> simp [checkOneInterface, matchesConfig, h]

theorem name_translation_and_not_found_witness :
    (checkOneInterface [] ethEntry).status = "not found" ∧
      (checkOneInterface [] ethEntry).matches_config = !ethEntry.enable ∧
      pyReplace "Ethernet1/1" "Ethernet" "Eth" = "Eth1/1" ∧
      "not found" ≠ "unknown" :=
  name_translation_and_not_found [] ethEntry rfl

/- ---------------------------------------------------------------------
   C3: exception recovery around the remote session
   --------------------------------------------------------------------- -/

theorem excMessage_ne_empty (e : NetmikoExc) : excMessage e ≠ "" := by
  cases e with
  | timeout => decide
  | authFail => decide
  | other m =>
    intro h
    obtain ⟨l⟩ := m
    exact List.noConfusion (congrArg String.data h)

theorem excMessage_other_ne_timeout (m : String) :
    excMessage (.other m) ≠ excMessage .timeout := by
  intro h
  obtain ⟨l⟩ := m
  have hd : ('E' :: 'r' :: 'r' :: 'o' :: 'r' :: ':' :: ' ' :: l) =
      "Connection Timeout".data := congrArg String.data h
  injection hd with h1 _
  exact absurd h1 (by decide)

theorem excMessage_other_ne_auth (m : String) :
    excMessage (.other m) ≠ excMessage .authFail := by
  intro h
  obtain ⟨l⟩ := m
  have hd : ('E' :: 'r' :: 'r' :: 'o' :: 'r' :: ':' :: ' ' :: l) =
      "Authentication Failed".data := congrArg String.data h
  injection hd with h1 _
  exact absurd h1 (by decide)

/-- C3 (amended): an exception raised by the connect call is recovered into
data — connected = false, a non-empty errorMessage with distinct messages
for timeout, authentication failure and any other exception — and any
discovered device whose session behaves that way forces the fabric-wide
verdict to false.  (Exceptions raised later, by the status command or the
disconnect, are also caught and recorded in errorMessage, but they leave
connected = true and need not fail the run; see the counterexample.) -/
theorem connect_failure_recovered (hasF : Bool) (ifaces : List IfaceEntry)
    (hn : Option YValue) (sb : SessionBehavior) (e : NetmikoExc)
    (h : sb.connect = some e) :
    (check_device_interface_connectivity hasF ifaces hn sb).connected = false ∧
      (check_device_interface_connectivity hasF ifaces hn sb).error_message =
        excMessage e ∧
      excMessage e ≠ "" ∧
      excMessage .timeout ≠ excMessage .authFail ∧
      (∀ m, excMessage (.other m) ≠ excMessage .timeout ∧
        excMessage (.other m) ≠ excMessage .authFail) ∧
      (∀ files ifacesOf sessionOf,
        (∃ d ∈ extract_devices_from_yaml files, (sessionOf d).connect = some e) →
          check files ifacesOf sessionOf = false) := by
  refine ⟨?_, ?_, excMessage_ne_empty e, by decide,
    fun m => ⟨excMessage_other_ne_timeout m, excMessage_other_ne_auth m⟩, ?_⟩
  · simp [check_device_interface_connectivity, h]
  · simp [check_device_interface_connectivity, h]
  · rintro files ifacesOf sessionOf ⟨d, hd, hc⟩
    rw [check_eq_all files ifacesOf sessionOf (List.ne_nil_of_mem hd)]
    cases hall : (extract_devices_from_yaml files).all
        (fun d => devOk (runDevice ifacesOf sessionOf d))
    · rfl
    · exfalso
      have hdev := List.all_eq_true.mp hall d hd
      rw [devOk, runDevice] at hdev
      simp [check_device_interface_connectivity, hc] at hdev

theorem connect_failure_recovered_witness :
    (check_device_interface_connectivity true [] none timeoutSession).connected = false ∧
      (check_device_interface_connectivity true [] none timeoutSession).error_message =
        "Connection Timeout" :=
  ⟨(connect_failure_recovered true [] none timeoutSession .timeout rfl).1,
    (connect_failure_recovered true [] none timeoutSession .timeout rfl).2.1⟩

/-- C3 (counterexample to the claim as stated): an exception raised by the
status command, after a successful connect, leaves connected = true in the
device record, and a run whose only device behaves that way still returns a
true fabric-wide verdict. -/
theorem exec_error_keeps_connected_cex :
    (check_device_interface_connectivity true [ethEntry] none execFailSession).connected = true ∧
      (check_device_interface_connectivity true [ethEntry] none execFailSession).error_message =
        "Error: boom" ∧
      check [wFile] (fun _ => [ethEntry]) (fun _ => execFailSession) = true :=
  ⟨rfl, rfl, rfl⟩

/- ---------------------------------------------------------------------
   C4: token-scan priority over the keyword fallback
   --------------------------------------------------------------------- -/

theorem scanTokens_some_mem (ts : List (List Char)) (v : String)
    (h : scanTokens ts = some v) : v ∈ statusVocab := by
  induction ts with
  | nil => exact absurd h (by simp [scanTokens])
  | cons t ts ih =>
    rw [scanTokens] at h
    split at h
    · have hkw : String.mk (lowerL (pyStripL t)) ∈ statusKeywords := by
        simpa using (by assumption : statusKeywords.contains (String.mk (lowerL (pyStripL t))) = true)
      injection h with hv
      subst hv
      rcases (by simpa [statusKeywords] using hkw) with h1 | h1 | h1 | h1 | h1 | h1 <;>
        simp [h1, statusVocab]
    · exact ih h

theorem scanTokens_some_ne_unknown (ts : List (List Char)) (v : String)
    (h : scanTokens ts = some v) : v ≠ "unknown" := by
  have hm := scanTokens_some_mem ts v h
  fin_cases hm <;> decide

theorem lineStatus_scan_some (s : List Char) (v : String)
    (h : scanTokens ((splitWsL s).drop 1) = some v) : lineStatusL s = v := by
  rw [lineStatusL, h]
  simp only [if_neg (scanTokens_some_ne_unknown _ _ h)]

theorem lineStatus_scan_none (s : List Char)
    (h : scanTokens ((splitWsL s).drop 1) = none) :
    lineStatusL s =
      (match keywordSearchStatus s with
        | some v => v
        | none =>
          match columnStatus s with
          | some v => v
          | none => "unknown") := by
  rw [lineStatusL, h]
  rfl

/-- C4: for every line, the token scan over the tokens after the first is
applied first — when it finds a keyword, that keyword (with "not" normalized
to "notconnect") is the status — and the full-line keyword fallback and the
column fallback are consulted only when the token scan found nothing; in
particular the example line resolves to "connected" for key "Eth1/1" via
the token scan. -/
theorem token_scan_priority :
    (∀ (s : List Char) (v : String),
      scanTokens ((splitWsL s).drop 1) = some v → lineStatusL s = v) ∧
    (∀ s : List Char,
      scanTokens ((splitWsL s).drop 1) = none →
        lineStatusL s =
          (match keywordSearchStatus s with
            | some v => v
            | none =>
              match columnStatus s with
              | some v => v
              | none => "unknown")) ∧
    parse_interface_status_output
        "Eth1/1   Server-Uplink   connected   1   full   1000   fiber" =
      [("Eth1/1", "connected")] ∧
    scanTokens ((splitWsL (lstripL
        "Eth1/1   Server-Uplink   connected   1   full   1000   fiber".data)).drop 1) =
      some "connected" := by
  exact ⟨lineStatus_scan_some, lineStatus_scan_none, rfl, rfl⟩

theorem token_scan_priority_witness :
    lineStatusL (lstripL
      "Eth1/1   Server-Uplink   connected   1   full   1000   fiber".data) =
      "connected" :=
  token_scan_priority.1 _ "connected" rfl

/- ---------------------------------------------------------------------
   C5: the status vocabulary invariant
   --------------------------------------------------------------------- -/

theorem keywordSearch_mem (s : List Char) (v : String)
    (h : keywordSearchStatus s = some v) : v ∈ statusVocab := by
  rw [keywordSearchStatus] at h
  split_ifs at h <;> simp only [Option.some.injEq] at h <;> subst h <;> decide

theorem lineStatus_vocab (s : List Char) :
    lineStatusL s ∈ statusVocab ∨ lineStatusL s = "unknown" ∨
      columnStatus s = some (lineStatusL s) := by
  cases hscan : scanTokens ((splitWsL s).drop 1) with
  | some v =>
    left
    rw [lineStatus_scan_some s v hscan]
    exact scanTokens_some_mem _ _ hscan
  | none =>
    rw [lineStatus_scan_none s hscan]
    cases hkw : keywordSearchStatus s with
    | some v =>
      simp only [hkw]
      exact Or.inl (keywordSearch_mem s v hkw)
    | none =>
      simp only [hkw]
      cases hcol : columnStatus s with
      | some v =>
        simp only [hcol]
        exact Or.inr (Or.inr trivial)
      | none =>
        simp only [hcol]
        exact Or.inr (Or.inl trivial)

theorem mem_updateAssoc {m : List (String × String)} {k v : String}
    {x : String × String} (h : x ∈ updateAssoc m k v) :
    x = (k, v) ∨ x ∈ m := by
  rw [updateAssoc] at h
  split at h
  · rcases List.mem_map.mp h with ⟨p, hp, he⟩
    by_cases hpk : (p.1 == k) = true
    · rw [if_pos hpk] at he
      exact Or.inl he.symm
    · rw [if_neg hpk] at he
      exact Or.inr (he ▸ hp)
  · rcases List.mem_append.mp h with h1 | h1
    · exact Or.inr h1
    · exact Or.inl (List.mem_singleton.mp h1)

theorem mem_parse_fold (L : List (List Char)) (m0 : List (String × String))
    (x : String × String)
    (h : x ∈ L.foldl
      (fun m lcs =>
        match parseLineL lcs with
        | some (k, v) => updateAssoc m k v
        | none => m) m0) :
    x ∈ m0 ∨ ∃ lcs, lcs ∈ L ∧ parseLineL lcs = some x := by
  induction L generalizing m0 with
  | nil => exact Or.inl h
  | cons l L ih =>
    rw [List.foldl_cons] at h
    rcases ih _ h with h1 | ⟨lcs, hin, hpl⟩
    · cases hpl : parseLineL l with
      | none => rw [hpl] at h1; exact Or.inl h1
      | some kv =>
        rw [hpl] at h1
        rcases mem_updateAssoc h1 with h2 | h2
        · exact Or.inr ⟨l, List.mem_cons_self l L, by rw [hpl, h2]⟩
        · exact Or.inl h2
    · exact Or.inr ⟨lcs, List.mem_cons_of_mem l hin, hpl⟩

/-- C5 (amended): every status value stored by the parser is one of the
fixed vocabulary, or "unknown", or — when the last-resort column strategy
fires — the stripped lower-cased third column (or third whitespace token)
of its source line, which need not belong to any fixed vocabulary. -/
theorem status_values_vocab_or_column (output : String) (k v : String)
    (h : (k, v) ∈ parse_interface_status_output output) :
    v ∈ statusVocab ∨ v = "unknown" ∨
      ∃ lcs, lcs ∈ splitOnNl output.data ∧
        columnStatus (lstripL lcs) = some v := by
  rcases mem_parse_fold _ _ _ h with h1 | ⟨lcs, hin, hpl⟩
  · exact absurd h1 (List.not_mem_nil _)
  · rw [parseLineL] at hpl
    cases hm : matchIfaceToken (lstripL lcs) with
    | none => rw [hm] at hpl; exact absurd hpl (by simp)
    | some key =>
      rw [hm] at hpl
      have hv : v = lineStatusL (lstripL lcs) := by
        injection hpl with hkv
        exact (congrArg Prod.snd hkv).symm
      rcases lineStatus_vocab (lstripL lcs) with h2 | h2 | h2
      · exact Or.inl (hv ▸ h2)
      · exact Or.inr (Or.inl (hv ▸ h2))
      · exact Or.inr (Or.inr ⟨lcs, hin, by rw [h2, hv]⟩)

theorem status_values_vocab_or_column_witness :
    (("Eth1/1", "bar") ∈ parse_interface_status_output "Eth1/1  foo  bar") ∧
      ("bar" ∈ statusVocab ∨ "bar" = "unknown" ∨
        ∃ lcs, lcs ∈ splitOnNl ("Eth1/1  foo  bar".data) ∧
          columnStatus (lstripL lcs) = some "bar") :=
  ⟨List.mem_singleton_self _,
    status_values_vocab_or_column "Eth1/1  foo  bar" "Eth1/1" "bar"
      (List.mem_singleton_self _)⟩

/-- C5 (counterexample to the claim as stated): the parser stores the
status value "bar" — neither in the fixed vocabulary nor "unknown" — for a
line whose third column is arbitrary text. -/
theorem status_value_outside_vocab :
    parse_interface_status_output "Eth1/1  foo  bar" = [("Eth1/1", "bar")] ∧
      "bar" ∉ statusVocab ∧ "bar" ≠ "unknown" :=
  ⟨rfl, by decide, by decide⟩

/- ---------------------------------------------------------------------
   C6: the identity-field search and assignment order
   --------------------------------------------------------------------- -/

mutual

theorem findV_eq_events (v : YValue) (st : DeviceInfoState) :
    find_device_info v st = (infoEventsV v).foldl applyEvent st :=
  match v with
  | .map ps => findM_eq_events ps st
  | .seq xs => findL_eq_events xs st
  | .null => rfl
  | .boolv _ => rfl
  | .numv _ => rfl
  | .strv _ => rfl

theorem findM_eq_events (ps : YMap) (st : DeviceInfoState) :
    findInfoMap ps st = (infoEventsM ps).foldl applyEvent st :=
  match ps with
  | .mnil => rfl
  | .mcons k v rest => by
    have harg :
        (if isIpKey k then { st with ip := some v }
         else if isHostKey k then { st with hostname := some v }
         else find_device_info v st) =
          (if isIpKey k then [InfoEvent.setIp v]
           else if isHostKey k then [InfoEvent.setHost v]
           else infoEventsV v).foldl applyEvent st := by
      by_cases hip : isIpKey k = true
      · simp [hip, applyEvent]
      · by_cases hhost : isHostKey k = true
        · simp [hip, hhost, applyEvent]
        · simp only [hip, hhost, Bool.false_eq_true, if_false]
          exact findV_eq_events v st
    rw [findInfoMap, infoEventsM, List.foldl_append, findM_eq_events rest, harg]

theorem findL_eq_events (xs : YList) (st : DeviceInfoState) :
    findInfoSeq xs st = (infoEventsL xs).foldl applyEvent st :=
  match xs with
  | .nil => rfl
  | .cons x rest => by
    rw [findInfoSeq, infoEventsL, List.foldl_append, findL_eq_events rest,
      findV_eq_events x]

end

theorem foldl_events_ip (evs : List InfoEvent) (st : DeviceInfoState) :
    (evs.foldl applyEvent st).ip = lastAssigned (ipVals evs) st.ip := by
  induction evs using List.reverseRecOn with
  | nil => rfl
  | append_singleton evs e ih =>
    rw [List.foldl_append]
    cases e with
    | setIp v =>
      simp [applyEvent, ipVals, List.filterMap_append, lastAssigned,
        List.getLast?_concat]
    | setHost v =>
      simp only [List.foldl_cons, List.foldl_nil, applyEvent]
      rw [ih]
      simp [ipVals, List.filterMap_append]

theorem foldl_events_host (evs : List InfoEvent) (st : DeviceInfoState) :
    (evs.foldl applyEvent st).hostname = lastAssigned (hostVals evs) st.hostname := by
  induction evs using List.reverseRecOn with
  | nil => rfl
  | append_singleton evs e ih =>
    rw [List.foldl_append]
    cases e with
    | setHost v =>
      simp [applyEvent, hostVals, List.filterMap_append, lastAssigned,
        List.getLast?_concat]
    | setIp v =>
      simp only [List.foldl_cons, List.foldl_nil, applyEvent]
      rw [ih]
      simp [hostVals, List.filterMap_append]

/-- C6 (amended): the identity-field search recurses into nested mappings
and sequences to any depth, matching keys case-insensitively, and when a
document contains more than one matching key per field the LAST assignment
in traversal order wins (each later occurrence overwrites the earlier);
with no occurrence the field keeps its previous content. -/
theorem identity_search_last_occurrence_wins (doc : YValue)
    (st : DeviceInfoState) :
    (find_device_info doc st).ip = lastAssigned (ipVals (infoEventsV doc)) st.ip ∧
      (find_device_info doc st).hostname =
        lastAssigned (hostVals (infoEventsV doc)) st.hostname := by
  rw [findV_eq_events]
  exact ⟨foldl_events_ip _ _, foldl_events_host _ _⟩

/-- C6 (counterexample to the claim as stated): a document whose traversal
meets hostname values "A" then "B" ends with hostname "B" — the first
occurrence does not win; later occurrences replace it. -/
theorem identity_search_not_first_wins :
    (find_device_info twoHostDoc ⟨none, none⟩).hostname = some (.strv "B") ∧
      hostVals (infoEventsV twoHostDoc) = [.strv "A", .strv "B"] ∧
      "B" ≠ "A" :=
  ⟨rfl, rfl, by decide⟩

/- ---------------------------------------------------------------------
   C7: the discovery depth rule
   --------------------------------------------------------------------- -/

theorem processFile_ineligible (f : FSFile) (seen : List String)
    (devs : List DeviceInfo) (h : eligibleFile f = false) :
    processFile f seen devs = (seen, devs) := by
  rw [processFile]
  rw [eligibleFile] at h
  rcases Bool.and_eq_false_iff.mp h with h1 | h1
  · rw [if_neg (by simp [h1])]
  · have hlen : f.relParts.length < 2 := by
      have := of_decide_eq_false h1
      omega
    by_cases hA : (pyLower f.suffix == ".yaml" || pyLower f.suffix == ".yml") = true
    · rw [if_pos hA, if_pos hlen]
    · rw [if_neg hA]

theorem extractLoop_filter (files : List FSFile) :
    ∀ (seen : List String) (devs : List DeviceInfo),
      extractLoop files seen devs = extractLoop (files.filter eligibleFile) seen devs := by
  induction files with
  | nil => intro seen devs; rfl
  | cons f rest ih =>
    intro seen devs
    by_cases hel : eligibleFile f = true
    · rw [List.filter_cons_of_pos hel]
      simp only [extractLoop]
      exact ih _ _
    · rw [List.filter_cons_of_neg hel]
      simp only [extractLoop]
      rw [processFile_ineligible f seen devs (Bool.eq_false_iff.mpr hel)]
      exact ih seen devs

/-- C7: files sitting directly under the root (depth one) never contribute
a device descriptor, regardless of content: the walk's result equals the
walk over only the files of depth at least two carrying one of the two
structured-data suffixes. -/
theorem root_level_files_never_contribute (files : List FSFile) :
    extract_devices_from_yaml files =
      extract_devices_from_yaml (files.filter eligibleFile) ∧
    ∀ f ∈ files, f.relParts.length < 2 → eligibleFile f = false := by
  constructor
  · exact extractLoop_filter files [] []
  · intro f _ hlen
    simp only [eligibleFile, Bool.and_eq_false_iff, decide_eq_false_iff_not]
    right
    omega

/- ---------------------------------------------------------------------
   C8: deduplication on the identity key
   --------------------------------------------------------------------- -/

theorem processFile_of_desc_none (f : FSFile) (seen : List String)
    (devs : List DeviceInfo) (h : fileDescriptor f = none) :
    processFile f seen devs = (seen, devs) := by
  rw [processFile]
  rw [fileDescriptor] at h
  by_cases hA : (pyLower f.suffix == ".yaml" || pyLower f.suffix == ".yml") = true
  · rw [if_pos hA] at h ⊢
    by_cases hlen : f.relParts.length < 2
    · rw [if_pos hlen]
    · rw [if_neg hlen] at h ⊢
      cases hdoc : f.doc with
      | none => rw [processDoc]
      | some data =>
        rw [hdoc] at h
        simp only [descDoc] at h
        rw [processDoc]
        cases hfind : find_device_info data ⟨none, none⟩ with
        | mk oip ohn =>
          rw [hfind] at h
          cases oip with
          | none => cases ohn <;> rfl
          | some ipv =>
            cases ohn with
            | none => rfl
            | some hostv => simp [descFound] at h
  · rw [if_neg hA]

theorem processFile_of_desc_some (f : FSFile) (seen : List String)
    (devs : List DeviceInfo) (d : DeviceInfo) (h : fileDescriptor f = some d) :
    processFile f seen devs =
      if keyMem (devKey d) seen then (seen, devs)
      else (devKey d :: seen, devs ++ [d]) := by
  rw [processFile]
  rw [fileDescriptor] at h
  by_cases hA : (pyLower f.suffix == ".yaml" || pyLower f.suffix == ".yml") = true
  · rw [if_pos hA] at h ⊢
    by_cases hlen : f.relParts.length < 2
    · rw [if_pos hlen] at h
      exact absurd h (by simp)
    · rw [if_neg hlen] at h ⊢
      cases hdoc : f.doc with
      | none =>
        rw [hdoc] at h
        simp only [descDoc] at h
        exact absurd h (by simp)
      | some data =>
        rw [hdoc] at h
        simp only [descDoc] at h
        rw [processDoc]
        cases hfind : find_device_info data ⟨none, none⟩ with
        | mk oip ohn =>
          rw [hfind] at h
          cases oip with
          | none => cases ohn <;> simp [descFound] at h
          | some ipv =>
            cases ohn with
            | none => simp [descFound] at h
            | some hostv =>
              have hd : d = ⟨fileName f, filePath f, ipv, hostv⟩ := by
                simp only [descFound, Option.some.injEq] at h
                exact h.symm
              subst hd
              rfl
  · rw [if_neg hA] at h
    exact absurd h (by simp)

theorem extractLoop_dedup (files : List FSFile) :
    ∀ (seen : List String) (devs : List DeviceInfo),
      extractLoop files seen devs =
        devs ++ dedupKeepFirst (files.filterMap fileDescriptor) seen := by
  induction files with
  | nil => intro seen devs; simp [extractLoop, dedupKeepFirst]
  | cons f rest ih =>
    intro seen devs
    rw [List.filterMap_cons]
    cases hfd : fileDescriptor f with
    | none =>
      simp only [extractLoop]
      rw [processFile_of_desc_none f seen devs hfd]
      exact ih seen devs
    | some d =>
      simp only [extractLoop]
      rw [processFile_of_desc_some f seen devs d hfd, dedupKeepFirst]
      by_cases hkm : keyMem (devKey d) seen = true
      · rw [if_pos hkm, if_pos hkm]
        exact ih seen devs
      · rw [if_neg hkm, if_neg hkm, ih _ _, List.append_assoc]
        rfl

theorem dedupKeepFirst_nodup (ds : List DeviceInfo) :
    ∀ (seen : List String),
      ((dedupKeepFirst ds seen).map devKey).Nodup ∧
        ∀ k ∈ (dedupKeepFirst ds seen).map devKey, keyMem k seen = false := by
  induction ds with
  | nil => intro seen; simp [dedupKeepFirst]
  | cons d ds ih =>
    intro seen
    rw [dedupKeepFirst]
    by_cases hkm : keyMem (devKey d) seen = true
    · rw [if_pos hkm]
      exact ih seen
    · rw [if_neg hkm]
      rcases ih (devKey d :: seen) with ⟨hnd, hnotin⟩
      constructor
      · rw [List.map_cons, List.nodup_cons]
        refine ⟨fun hmem => ?_, hnd⟩
        have := hnotin _ hmem
        rw [keyMem_cons] at this
        simp at this
      · intro k hk
        rw [List.map_cons] at hk
        rcases List.mem_cons.mp hk with h1 | h1
        · rw [h1]
          exact Bool.eq_false_iff.mpr hkm
        · have := hnotin _ h1
          rw [keyMem_cons, Bool.or_eq_false_iff] at this
          exact this.2

/-- C8: deduplication uses the identity key hostname ++ "_" ++ address:
the device list equals keep-first-per-key deduplication of the per-file
descriptors (so the first-discovered document is kept and later duplicates
are dropped, not merged), and the keys of the returned descriptors are
pairwise distinct — two documents yielding the same hostname and address
contribute exactly one descriptor. -/
theorem dedup_on_identity_key (files : List FSFile) :
    extract_devices_from_yaml files =
      dedupKeepFirst (files.filterMap fileDescriptor) [] ∧
      ((extract_devices_from_yaml files).map devKey).Nodup := by
  have h := extractLoop_dedup files [] []
  rw [List.nil_append] at h
  refine ⟨h, ?_⟩
  rw [extract_devices_from_yaml, h]
  exact (dedupKeepFirst_nodup _ []).1

end ConnCheck
